import Mathlib

/-!
Shallow embedding of the control core of the ESP32 SD-card music player
(src/src/main.cpp) for checking its natural-language specification.

The embedding follows the source faithfully:
* C++ `int` globals (`totalSongs`, `currentSongIndex`, `lastVolume`) become
  `Int`; indices may be negative (`currentSongIndex = -1` means no track).
* C++ integer `%` truncates toward zero, so it is modelled by `Int.tmod`.
* The playlist index file `/playlist.m3u` is modelled as
  `Option (List String)`: `none` when the file is absent or cannot be
  opened, `some lines` is the list of lines produced by
  `readStringUntil(CHAR_NL)`; each line is trimmed before use, exactly as
  the source calls `line.trim()`.
* The Arduino `random(0, totalSongs)` draw is passed in as an explicit
  parameter `r`; theorems that depend on it carry the library guarantee
  `0 <= r < totalSongs` as a hypothesis.
* The external decoder (`Audio audio`) is modelled by the fields
  `audioRunning`, `audioPaused`, `audioPath`, `audioVolume`,
  `audioCurrentTime` of the player context: `connecttoFS` starts a fresh
  session on a path, `stopSong` clears `audioRunning`,
  `getAudioCurrentTime()` is the elapsed seconds of the current session.
-/

namespace EspPlayer

/-- The `PlayerState` enum of main.cpp. -/
inductive PlayerState where
  | noCard
  | idle
  | playing
  | paused
  | off
  | bluetooth
deriving DecidableEq, Repr

/-- Numeric value of each `PlayerState` enumerator, as printed by the
`status` serial command (`%d` of the enum). -/
def PlayerState.code : PlayerState → Nat
  | .noCard => 0
  | .idle => 1
  | .playing => 2
  | .paused => 3
  | .off => 4
  | .bluetooth => 5

/-- The free-standing mutable globals of main.cpp that the claims touch,
together with the modelled decoder and SD-card state. -/
structure PlayerCtx where
  totalSongs : Int
  currentSongIndex : Int
  shuffleMode : Bool
  currentState : PlayerState
  shouldPlayNext : Bool
  cardMounted : Bool
  lastVolume : Int
  audioRunning : Bool
  audioPaused : Bool
  audioPath : Option String
  audioVolume : Int
  audioCurrentTime : Nat
  playlistFile : Option (List String)
deriving DecidableEq, Repr

/-- Arduino `String::trim()`: drop leading and trailing whitespace.
Modelled structurally over the character list so that concrete instances
evaluate. -/
def trimStr (s : String) : String :=
  String.mk (((s.data.dropWhile Char.isWhitespace).reverse.dropWhile Char.isWhitespace).reverse)

/-- The non-empty lines of the index file, each trimmed: every reader of
`/playlist.m3u` (`loadPlaylistCache`, `getSongPath`) trims each line and
skips lines of length 0. -/
def nonEmptyLines (lines : List String) : List String :=
  (lines.map trimStr).filter (fun s => 0 < s.length)

/-- Number of non-empty (after trimming) lines: the count computed by the
`while (f.available())` loop of `loadPlaylistCache` (main.cpp 129-136). -/
def countNonEmpty (lines : List String) : Nat :=
  (nonEmptyLines lines).length

/-- `loadPlaylistCache` (main.cpp 121-144): returns false when the index
file is absent or fails to open; otherwise counts non-empty lines into
`totalSongs` and returns whether the count is positive. -/
def loadPlaylistCache (ctx : PlayerCtx) : Bool × PlayerCtx :=
  match ctx.playlistFile with
  | none => (false, ctx)
  | some lines =>
    let n := countNonEmpty lines
    (0 < n, { ctx with totalSongs := (n : Int) })

/-- The scanning loop of `getSongPath` (main.cpp 196-206): walk the lines,
trim each, skip empties, and return the trimmed line whose non-empty rank
equals the target (the source counts up with `current == index`; here the
target counts down, which is the same recursion). Returns "" when fewer
than `k + 1` non-empty lines exist. -/
def findNonEmptyAt : List String → Nat → String
  | [], _ => ""
  | l :: ls, k =>
    if 0 < (trimStr l).length then
      match k with
      | 0 => trimStr l
      | k' + 1 => findNonEmptyAt ls k'
    else
      findNonEmptyAt ls k

/-- `getSongPath` (main.cpp 188-209): guard the index against
`[0, totalSongs)`, fail with "" when the file cannot be opened, else
stream the file counting non-empty lines. -/
def getSongPath (file : Option (List String)) (totalSongs : Int) (index : Int) : String :=
  if index < 0 ∨ totalSongs ≤ index then ""
  else
    match file with
    | none => ""
    | some lines => findNonEmptyAt lines index.toNat

/-- `scanDirectory` (main.cpp 147-186), abstracted over the directory walk:
`found` is the list of `.mp3` paths the walk yields (non-hidden files with
a leading "/" prepended when missing); the function overwrites the
playlist file with them and sets `totalSongs` to their number. -/
def scanDirectory (ctx : PlayerCtx) (found : List String) : PlayerCtx :=
  { ctx with playlistFile := some found, totalSongs := (found.length : Int) }

/-- `playSongAtIndex` (main.cpp 289-308): out-of-range indices return at
once; otherwise `currentSongIndex` is assigned first, then the path is
resolved; an empty path returns with only `currentSongIndex` updated;
otherwise any running song is stopped, the new source is connected
(a fresh decoder session, elapsed time 0), the state becomes `playing`,
and the last known volume is re-applied when one was recorded. -/
def playSongAtIndex (ctx : PlayerCtx) (index : Int) : PlayerCtx :=
  if index < 0 ∨ ctx.totalSongs ≤ index then ctx
  else
    let ctx1 := { ctx with currentSongIndex := index }
    let path := getSongPath ctx.playlistFile ctx.totalSongs index
    if path = "" then ctx1
    else
      { ctx1 with
        audioRunning := true
        audioPaused := false
        audioPath := some path
        audioCurrentTime := 0
        currentState := PlayerState.playing
        audioVolume := if 0 ≤ ctx.lastVolume then ctx.lastVolume else ctx.audioVolume }

/-- `playNextSong` (main.cpp 310-327): no-op on an empty catalog. In
shuffle mode, draw `r = random(0, totalSongs)` and, when the draw equals
the current index and more than one song exists, nudge it forward by one
modulo `totalSongs`; in sequential mode take `(currentSongIndex + 1) %
totalSongs` (C++ truncating `%`, hence `Int.tmod`). -/
def playNextSong (ctx : PlayerCtx) (r : Int) : PlayerCtx :=
  if ctx.totalSongs = 0 then ctx
  else
    let nextIndex :=
      if ctx.shuffleMode then
        if 1 < ctx.totalSongs ∧ r = ctx.currentSongIndex then
          Int.tmod (r + 1) ctx.totalSongs
        else r
      else
        Int.tmod (ctx.currentSongIndex + 1) ctx.totalSongs
    playSongAtIndex ctx nextIndex

/-- `playPreviousSong` (main.cpp 329-342): no-op on an empty catalog; when
the decoder reports strictly more than 3 elapsed seconds, restart the
current index; otherwise step back one, wrapping to `totalSongs - 1`. -/
def playPreviousSong (ctx : PlayerCtx) : PlayerCtx :=
  if ctx.totalSongs = 0 then ctx
  else if 3 < ctx.audioCurrentTime then
    playSongAtIndex ctx ctx.currentSongIndex
  else
    let prevIndex := ctx.currentSongIndex - 1
    let prevIndex := if prevIndex < 0 then ctx.totalSongs - 1 else prevIndex
    playSongAtIndex ctx prevIndex

/-- `togglePause` (main.cpp 344-357): `audio.pauseResume()` plus the
`playing <-> paused` state flip; any other state is untouched. -/
def togglePause (ctx : PlayerCtx) : PlayerCtx :=
  if ctx.currentState = PlayerState.playing then
    { ctx with audioPaused := true, currentState := PlayerState.paused }
  else if ctx.currentState = PlayerState.paused then
    { ctx with audioPaused := false, currentState := PlayerState.playing }
  else ctx

/-- `toggleShuffle` (main.cpp 387-393). -/
def toggleShuffle (ctx : PlayerCtx) : PlayerCtx :=
  { ctx with shuffleMode := !ctx.shuffleMode }

/-- `fadeOut` (main.cpp 211-220): ramps the decoder volume down to 0 while
keeping `audio.loop()` served; the net state effect is volume 0. -/
def fadeOutCtx (ctx : PlayerCtx) : PlayerCtx :=
  { ctx with audioVolume := 0 }

/-- `audio.stopSong()`: the decoder session stops running. -/
def stopSongCtx (ctx : PlayerCtx) : PlayerCtx :=
  { ctx with audioRunning := false }

/-- `unmountSDCard` (main.cpp 269-278). -/
def unmountSDCard (ctx : PlayerCtx) : PlayerCtx :=
  { ctx with
    audioRunning := false
    cardMounted := false
    currentState := PlayerState.noCard
    totalSongs := 0
    currentSongIndex := -1 }

/-- The command tokens the serial dispatch chain of `loop()` recognizes
(main.cpp 792-824). -/
def recognizedCmd (cmd : String) : Bool :=
  cmd = "next" || cmd = "n" || cmd = "prev" || cmd = "p" || cmd = "pause" ||
  cmd = "shuffle" || cmd = "rescan" || cmd = "bench" || cmd = "status"

/-- The normalization `cmd.trim(); cmd.toLowerCase();` the source applies
to the line read from Serial before dispatching it (main.cpp 789-790). -/
def normalizeCmd (raw : String) : String :=
  (trimStr raw).toLower

/-- The serial-command dispatch of `loop()` (main.cpp 788-825). `cmd` is
the already-normalized token, `normalizeCmd` of the raw line; the source
then runs an if/else-if chain with no final else branch. The second
component is the list of texts the dispatch block itself prints (nested
helpers such as `playNextSong` print through Serial on their own and are
modelled for state only; the unrecognized case reaches no helper). The
unconditional `cleanSerialLine()` before the chain only terminates a
pending status line and touches no player state. -/
def serialDispatch (ctx : PlayerCtx) (cmd : String) (r : Int) : PlayerCtx × List String :=
  if cmd = "next" ∨ cmd = "n" then
    (playNextSong (stopSongCtx (fadeOutCtx ctx)) r, [])
  else if cmd = "prev" ∨ cmd = "p" then
    (playPreviousSong (fadeOutCtx ctx), [])
  else if cmd = "pause" then
    (togglePause ctx, [])
  else if cmd = "shuffle" then
    (toggleShuffle ctx, [])
  else if cmd = "rescan" then
    ({ ctx with playlistFile := none }, ["Cache deleted. Reboot to rescan."])
  else if cmd = "bench" then
    (ctx, ["Starting SD Card Benchmark..."])
  else if cmd = "status" then
    (ctx,
      ["State: " ++ toString ctx.currentState.code ++
       " | Shuffle: " ++ toString (if ctx.shuffleMode then (1 : Nat) else 0) ++
       " | Songs: " ++ toString ctx.totalSongs ++
       " | Index: " ++ toString ctx.currentSongIndex])
  else
    (ctx, [])

/-- External inputs of one SD-mode iteration of `loop()`:
`eofFired` — the decoder reached end of file during this `audio.loop()`
call (the library stops the song and fires `audio_eof_mp3`);
`cardCheckDue` — the 2-second card-check interval elapsed;
`cardPresent` — what `checkCardPresent()` would report;
`mountOk`, `mountedFileLines`, `scanResult` — outcome of an
`SD.begin` attempt and of the SD reads a successful mount performs;
`serialCmd` — the normalized token of the line available on Serial, if any;
`r` — the `random(0, totalSongs)` draw used by any `playNextSong` call. -/
structure LoopInputs where
  eofFired : Bool
  cardCheckDue : Bool
  cardPresent : Bool
  mountOk : Bool
  mountedFileLines : Option (List String)
  scanResult : List String
  serialCmd : Option String
  r : Int
deriving Repr

/-- `if (cardMounted) audio.loop();` together with the `audio_eof_mp3`
callback (main.cpp 664, 847-851): when the running song ends this tick,
the decoder stops and the callback sets `shouldPlayNext`. -/
def audioLoopTick (ctx : PlayerCtx) (eofFired : Bool) : PlayerCtx :=
  if ctx.cardMounted ∧ ctx.audioRunning ∧ eofFired then
    { ctx with audioRunning := false, shouldPlayNext := true }
  else ctx

/-- `mountSDCard` (main.cpp 236-267), abstracted over the SD hardware:
on `SD.begin` success, load the cached playlist or scan the directory,
then mark the card mounted. The force-rescan button check and the random
seeding have no modelled state effect. -/
def mountSDCard (ctx : PlayerCtx) (inp : LoopInputs) : Bool × PlayerCtx :=
  if inp.mountOk then
    let ctx0 := { ctx with playlistFile := inp.mountedFileLines }
    let (ok, ctx1) := loadPlaylistCache ctx0
    let ctx2 := if ok then ctx1 else scanDirectory ctx1 inp.scanResult
    (true, { ctx2 with cardMounted := true })
  else (false, ctx)

/-- One SD-mode iteration of `loop()` (main.cpp 662-826), restricted to the
state-bearing steps: (1) `audio.loop()` with the EOF callback, (2) the
`shouldPlayNext` handler, (3) the periodic card hot-swap check — skipping
the removal test while `STATE_PLAYING`, attempting a remount when no card
is mounted — and (4) the serial-command dispatch. LED updates, the OneButton
ticks (modelled as an iteration with no resolved gesture), potentiometer
volume sampling and the status print touch no session state. The loop
keeps no decode-progress timestamp: no step below reads a clock. -/
def sdLoopStep (ctx : PlayerCtx) (inp : LoopInputs) : PlayerCtx :=
  let ctxA := audioLoopTick ctx inp.eofFired
  let ctxB :=
    if ctxA.shouldPlayNext then
      playNextSong { ctxA with shouldPlayNext := false } inp.r
    else ctxA
  let ctxC :=
    if inp.cardCheckDue then
      if ctxB.cardMounted ∧ ctxB.currentState ≠ PlayerState.playing ∧ ¬ inp.cardPresent then
        unmountSDCard ctxB
      else if ¬ ctxB.cardMounted then
        match mountSDCard ctxB inp with
        | (true, ctxM) => playNextSong { ctxM with currentState := PlayerState.idle } inp.r
        | (false, ctxM) => ctxM
      else ctxB
    else ctxB
  match inp.serialCmd with
  | some cmd => (serialDispatch ctxC cmd inp.r).1
  | none => ctxC

/-- `playNextSong` iterated with a fixed draw (sequential mode ignores the
draw entirely): the state after `n` successive `next()` calls. -/
def iterNext (ctx : PlayerCtx) : Nat → PlayerCtx
  | 0 => ctx
  | n + 1 => playNextSong (iterNext ctx n) 0

/-- The trace of indices visited by successive `playNextSong` calls, one
per random draw in `draws`. -/
def playNextTrace (ctx : PlayerCtx) : List Int → List Int
  | [] => []
  | r :: rs =>
    let ctx1 := playNextSong ctx r
    ctx1.currentSongIndex :: playNextTrace ctx1 rs

/-! ### Concrete states used by witnesses and counterexamples -/

/-- The globals exactly as initialized at the top of main.cpp:
no card, empty catalog, no current song, shuffle on by default. -/
def baseCtx : PlayerCtx :=
  { totalSongs := 0
    currentSongIndex := -1
    shuffleMode := true
    currentState := PlayerState.noCard
    shouldPlayNext := false
    cardMounted := false
    lastVolume := -1
    audioRunning := false
    audioPaused := false
    audioPath := none
    audioVolume := 0
    audioCurrentTime := 0
    playlistFile := none }

/-- A mounted card with a three-song catalog, the third song playing in
shuffle mode. -/
def runCtx : PlayerCtx := { baseCtx with
  totalSongs := 3
  currentSongIndex := 2
  shuffleMode := true
  currentState := PlayerState.playing
  cardMounted := true
  audioRunning := true
  audioCurrentTime := 9
  playlistFile := some ["/a.mp3", "/b.mp3", "/c.mp3"] }

/-- A stale catalog: `totalSongs` says two songs, but the index file holds
a single path, so resolving position 1 fails. -/
def staleCtx : PlayerCtx := { baseCtx with
  totalSongs := 2
  currentSongIndex := 0
  shuffleMode := false
  currentState := PlayerState.playing
  cardMounted := true
  audioRunning := true
  playlistFile := some ["/a.mp3"] }

/-- A five-song catalog positioned on the last track, sequential mode. -/
def seqCtx : PlayerCtx := { baseCtx with
  totalSongs := 5
  currentSongIndex := 4
  shuffleMode := false
  currentState := PlayerState.playing
  cardMounted := true
  audioRunning := true
  playlistFile := some ["/a.mp3", "/b.mp3", "/c.mp3", "/d.mp3", "/e.mp3"] }

/-- A loop iteration observed mid-stall: the decoder produces no
end-of-file, no serial command arrives, the card-presence check is due and
the card is in fact gone (removed during playback). -/
def stallInputs : LoopInputs :=
  { eofFired := false
    cardCheckDue := true
    cardPresent := false
    mountOk := false
    mountedFileLines := none
    scanResult := []
    serialCmd := none
    r := 0 }

/-! ### Catalog-index lemmas -/

theorem nonEmptyLines_cons (l : String) (ls : List String) :
    nonEmptyLines (l :: ls) =
      if 0 < (trimStr l).length then trimStr l :: nonEmptyLines ls else nonEmptyLines ls := by
  simp only [nonEmptyLines, List.map_cons, List.filter_cons]
  split
  · rename_i h
    rw [if_pos (of_decide_eq_true h)]
  · rename_i h
    rw [if_neg (fun hp => h (decide_eq_true hp))]

theorem findNonEmptyAt_eq_getD (lines : List String) (k : Nat) :
    findNonEmptyAt lines k = (nonEmptyLines lines).getD k "" := by
  induction lines generalizing k with
  | nil => simp [findNonEmptyAt, nonEmptyLines]
  | cons l ls ih =>
    rw [nonEmptyLines_cons]
    by_cases h : 0 < (trimStr l).length
    · rw [if_pos h]
      cases k with
      | zero => simp [findNonEmptyAt, h]
      | succ k' => simp [findNonEmptyAt, h, ih]
    · rw [if_neg h]
      simp [findNonEmptyAt, h, ih]

theorem mem_nonEmptyLines_pos {s : String} {lines : List String}
    (h : s ∈ nonEmptyLines lines) : 0 < s.length := by
  have := List.of_mem_filter h
  exact of_decide_eq_true this

theorem countNonEmpty_append_blank (lines extra : List String)
    (h : ∀ l ∈ extra, trimStr l = "") : countNonEmpty (lines ++ extra) = countNonEmpty lines := by
  have hextra : nonEmptyLines extra = [] := by
    refine List.filter_eq_nil_iff.mpr ?_
    intro a ha
    rcases List.mem_map.mp ha with ⟨x, hx, rfl⟩
    simp [h x hx]
  have happ : nonEmptyLines (lines ++ extra) = nonEmptyLines lines ++ nonEmptyLines extra := by
    simp [nonEmptyLines, List.filter_append]
  rw [countNonEmpty, happ, hextra, List.append_nil]
  rfl

/-! ### Claim theorems: catalog index -/

/-- C6: `loadCachedCount()` (source: `loadPlaylistCache`) reports success
exactly when the index file is present with a positive number of
non-empty (after trimming) lines; on a present file it stores that count
into `totalSongs`; and appending trailing blank lines never changes the
count. -/
theorem cachedCountSpec (ctx : PlayerCtx) :
    ((loadPlaylistCache ctx).1 = true ↔
      ∃ lines, ctx.playlistFile = some lines ∧ 0 < countNonEmpty lines) ∧
    (∀ lines, ctx.playlistFile = some lines →
      ((loadPlaylistCache ctx).2).totalSongs = (countNonEmpty lines : Int)) ∧
    (∀ lines extra, (∀ l ∈ extra, trimStr l = "") →
      countNonEmpty (lines ++ extra) = countNonEmpty lines) := by
  refine ⟨?_, ?_, fun lines extra h => countNonEmpty_append_blank lines extra h⟩
  · cases hf : ctx.playlistFile with
    | none => simp [loadPlaylistCache, hf]
    | some lines => simp [loadPlaylistCache, hf]
  · intro lines hf
    simp [loadPlaylistCache, hf]

/-- Witness for C6 at a one-song index file carrying a whitespace line and
an empty line. -/
theorem cachedCountSpec_witness :
    (loadPlaylistCache { baseCtx with playlistFile := some ["/a.mp3", " ", ""] }).1 = true ∧
    ((loadPlaylistCache { baseCtx with playlistFile := some ["/a.mp3", " ", ""] }).2).totalSongs = 1 ∧
    countNonEmpty (["/a.mp3"] ++ ["", " "]) = countNonEmpty ["/a.mp3"] := by
  refine ⟨?_, ?_, ?_⟩
  · exact (cachedCountSpec _).1.mpr ⟨["/a.mp3", " ", ""], rfl, by decide⟩
  · exact ((cachedCountSpec _).2.1 ["/a.mp3", " ", ""] rfl).trans (by decide)
  · exact (cachedCountSpec baseCtx).2.2 ["/a.mp3"] ["", " "] (by decide)

/-- C7: `pathAt` (source: `getSongPath`), under the catalog invariant that
`totalSongs` equals the number of non-empty lines of the index file,
returns            "" exactly when the requested position lies outside
`[0, count)`, and on an in-range position returns the entry of rank
`position` among the trimmed non-empty lines, streamed from the start.
Determinism over a fixed file is inherent: the embedding is a pure
function of the file and the position. -/
theorem pathAtSpec (lines : List String) (i : Int) :
    (getSongPath (some lines) (countNonEmpty lines) i = "" ↔
      (i < 0 ∨ (countNonEmpty lines : Int) ≤ i)) ∧
    (0 ≤ i → i < (countNonEmpty lines : Int) →
      getSongPath (some lines) (countNonEmpty lines) i =
        (nonEmptyLines lines).getD i.toNat "") := by
  have hrange : ∀ h0 : 0 ≤ i, ∀ h1 : i < (countNonEmpty lines : Int),
      getSongPath (some lines) (countNonEmpty lines) i =
        (nonEmptyLines lines).getD i.toNat "" := by
    intro h0 h1
    have hg : ¬ (i < 0 ∨ (countNonEmpty lines : Int) ≤ i) := by omega
    simp [getSongPath, if_neg hg, findNonEmptyAt_eq_getD]
  refine ⟨⟨?_, ?_⟩, hrange⟩
  · intro h
    by_contra hc
    push_neg at hc
    obtain ⟨h0, h1⟩ := hc
    have h0' : 0 ≤ i := by omega
    have h1' : i < (countNonEmpty lines : Int) := by omega
    rw [hrange h0' h1'] at h
    have hk : i.toNat < (nonEmptyLines lines).length := by
      have : countNonEmpty lines = (nonEmptyLines lines).length := rfl
      omega
    rw [List.getD_eq_getElem _ _ hk] at h
    have hmem : (nonEmptyLines lines)[i.toNat] ∈ nonEmptyLines lines :=
      List.getElem_mem hk
    have hpos := mem_nonEmptyLines_pos hmem
    rw [h] at hpos
    simp at hpos
  · intro h
    simp [getSongPath, if_pos h]

/-- Witness for C7: in a file with a blank line and padded entries,
position 1 resolves to the second trimmed non-empty line. -/
theorem pathAtSpec_witness :
    getSongPath (some ["/a.mp3", "", " /b.mp3 "]) (countNonEmpty ["/a.mp3", "", " /b.mp3 "]) 1 =
      (nonEmptyLines ["/a.mp3", "", " /b.mp3 "]).getD (1 : Int).toNat "" :=
  (pathAtSpec ["/a.mp3", "", " /b.mp3 "] 1).2 (by decide) (by decide)

/-! ### Playback-control lemmas -/

theorem playSongAtIndex_out {ctx : PlayerCtx} {i : Int}
    (h : i < 0 ∨ ctx.totalSongs ≤ i) : playSongAtIndex ctx i = ctx := by
  simp [playSongAtIndex, if_pos h]

theorem playSongAtIndex_preserved (ctx : PlayerCtx) (i : Int) :
    (playSongAtIndex ctx i).totalSongs = ctx.totalSongs ∧
    (playSongAtIndex ctx i).shuffleMode = ctx.shuffleMode ∧
    (playSongAtIndex ctx i).playlistFile = ctx.playlistFile := by
  simp only [playSongAtIndex]
  split
  · exact ⟨rfl, rfl, rfl⟩
  · split
    · exact ⟨rfl, rfl, rfl⟩
    · exact ⟨rfl, rfl, rfl⟩

theorem playSongAtIndex_index {ctx : PlayerCtx} {i : Int}
    (h0 : 0 ≤ i) (h1 : i < ctx.totalSongs) :
    (playSongAtIndex ctx i).currentSongIndex = i := by
  have hg : ¬ (i < 0 ∨ ctx.totalSongs ≤ i) := by omega
  simp only [playSongAtIndex, if_neg hg]
  split
  · rfl
  · rfl

theorem playNextSong_preserved (ctx : PlayerCtx) (r : Int) :
    (playNextSong ctx r).totalSongs = ctx.totalSongs ∧
    (playNextSong ctx r).shuffleMode = ctx.shuffleMode ∧
    (playNextSong ctx r).playlistFile = ctx.playlistFile := by
  simp only [playNextSong]
  split
  · exact ⟨rfl, rfl, rfl⟩
  · exact playSongAtIndex_preserved ..

theorem playNextSong_seq_index {ctx : PlayerCtx} (r : Int)
    (hm : ctx.shuffleMode = false) (h0 : 0 < ctx.totalSongs)
    (hc : 0 ≤ ctx.currentSongIndex) :
    (playNextSong ctx r).currentSongIndex =
      (ctx.currentSongIndex + 1) % ctx.totalSongs := by
  have ht : ¬ ctx.totalSongs = 0 := by omega
  have htm : Int.tmod (ctx.currentSongIndex + 1) ctx.totalSongs =
      (ctx.currentSongIndex + 1) % ctx.totalSongs :=
    Int.tmod_eq_emod (by omega) (by omega)
  have hb0 : 0 ≤ (ctx.currentSongIndex + 1) % ctx.totalSongs :=
    Int.emod_nonneg _ (by omega)
  have hb1 : (ctx.currentSongIndex + 1) % ctx.totalSongs < ctx.totalSongs :=
    Int.emod_lt_of_pos _ h0
  simp only [playNextSong, if_neg ht, hm, Bool.false_eq_true, if_false, htm]
  exact playSongAtIndex_index hb0 hb1

theorem iterNext_seq (ctx : PlayerCtx)
    (hm : ctx.shuffleMode = false) (h0 : 0 < ctx.totalSongs)
    (hc0 : 0 ≤ ctx.currentSongIndex) (hc1 : ctx.currentSongIndex < ctx.totalSongs) :
    ∀ n : Nat,
      (iterNext ctx n).totalSongs = ctx.totalSongs ∧
      (iterNext ctx n).shuffleMode = false ∧
      (iterNext ctx n).currentSongIndex =
        (ctx.currentSongIndex + n) % ctx.totalSongs := by
  intro n
  induction n with
  | zero =>
    refine ⟨rfl, hm, ?_⟩
    simpa using (Int.emod_eq_of_lt hc0 hc1).symm
  | succ n ih =>
    obtain ⟨iht, ihm, ihi⟩ := ih
    have hc' : 0 ≤ (iterNext ctx n).currentSongIndex := by
      rw [ihi]; exact Int.emod_nonneg _ (by omega)
    have h0' : 0 < (iterNext ctx n).totalSongs := by rw [iht]; exact h0
    refine ⟨?_, ?_, ?_⟩
    · show (playNextSong (iterNext ctx n) 0).totalSongs = ctx.totalSongs
      rw [(playNextSong_preserved ..).1, iht]
    · show (playNextSong (iterNext ctx n) 0).shuffleMode = false
      rw [(playNextSong_preserved ..).2.1, ihm]
    · show (playNextSong (iterNext ctx n) 0).currentSongIndex = _
      rw [playNextSong_seq_index 0 ihm h0' hc', iht, ihi, Int.emod_add_emod]
      congr 1
      push_cast
      ring

/-! ### Claim theorems: traversal and playback -/

/-- C3 counterexample: with a stale two-entry count over a one-line index
file, position 1 fails path resolution, yet `playSongAtIndex` neither
transitions the state to Idle (it stays `playing`) nor is otherwise a
no-op: the current song index has already been overwritten with the
requested position. This refutes the claim that a failed resolution
yields `Idle` with no other state change. -/
theorem failedResolveCounterexample :
    getSongPath staleCtx.playlistFile staleCtx.totalSongs 1 = "" ∧
    (playSongAtIndex staleCtx 1).currentState = PlayerState.playing ∧
    (playSongAtIndex staleCtx 1).currentState ≠ PlayerState.idle ∧
    (playSongAtIndex staleCtx 1).currentSongIndex = 1 ∧
    staleCtx.currentSongIndex = 0 := by
  decide

/-- C3 amended: when path resolution fails for an in-range position,
`playSongAtIndex` starts no decoder session and leaves every field except
`currentSongIndex` unchanged — in particular `currentState` keeps its old
value instead of becoming Idle — but `currentSongIndex` has already been
set to the requested position before the resolution check. -/
theorem failedResolveSetsIndexOnly (ctx : PlayerCtx) (i : Int)
    (h0 : 0 ≤ i) (h1 : i < ctx.totalSongs)
    (hp : getSongPath ctx.playlistFile ctx.totalSongs i = "") :
    playSongAtIndex ctx i = { ctx with currentSongIndex := i } := by
  have hg : ¬ (i < 0 ∨ ctx.totalSongs ≤ i) := by omega
  simp [playSongAtIndex, if_neg hg, hp]

/-- Witness for the amended C3 at the stale catalog. -/
theorem failedResolveSetsIndexOnly_witness :
    playSongAtIndex staleCtx 1 = { staleCtx with currentSongIndex := 1 } :=
  failedResolveSetsIndexOnly staleCtx 1 (by decide) (by decide) (by decide)

/-- C4: with a non-empty catalog and an in-range current position,
`previous()` (source: `playPreviousSong`) restarts the same position when
the elapsed playback time strictly exceeds 3 seconds, and otherwise moves
to `(p - 1) mod total`, wrapping position 0 to `total - 1`. -/
theorem previousRestartsOrWraps (ctx : PlayerCtx)
    (h0 : 0 < ctx.totalSongs) (hc0 : 0 ≤ ctx.currentSongIndex)
    (hc1 : ctx.currentSongIndex < ctx.totalSongs) :
    (3 < ctx.audioCurrentTime →
      (playPreviousSong ctx).currentSongIndex = ctx.currentSongIndex) ∧
    (ctx.audioCurrentTime ≤ 3 →
      (playPreviousSong ctx).currentSongIndex =
        (ctx.currentSongIndex - 1) % ctx.totalSongs) := by
  have ht : ¬ ctx.totalSongs = 0 := by omega
  constructor
  · intro he
    simp only [playPreviousSong, if_neg ht, if_pos he]
    exact playSongAtIndex_index hc0 hc1
  · intro he
    have he' : ¬ 3 < ctx.audioCurrentTime := by omega
    simp only [playPreviousSong, if_neg ht, if_neg he']
    by_cases hz : ctx.currentSongIndex - 1 < 0
    · rw [if_pos hz, playSongAtIndex_index (by omega) (by omega)]
      have hc : ctx.currentSongIndex = 0 := by omega
      have h1 : ((-1 : Int) + ctx.totalSongs * 1) % ctx.totalSongs =
          (-1 : Int) % ctx.totalSongs :=
        Int.add_mul_emod_self_left (-1) ctx.totalSongs 1
      have h2 : ((-1 : Int) + ctx.totalSongs * 1) = ctx.totalSongs - 1 := by ring
      rw [hc, show ((0 : Int) - 1) = -1 by ring, ← h1, h2,
        Int.emod_eq_of_lt (by omega) (by omega)]
    · rw [if_neg hz, playSongAtIndex_index (by omega) (by omega),
        Int.emod_eq_of_lt (by omega) (by omega)]

/-- Three songs, positioned on the first track, 2 s elapsed. -/
def prevCtx : PlayerCtx := { seqCtx with
  totalSongs := 3
  currentSongIndex := 0
  audioCurrentTime := 2 }

/-- Witness for C4: three songs, position 0, elapsed 2 s: previous wraps
to position 2; and at 9 s elapsed (runCtx) previous restarts position 2. -/
theorem previousRestartsOrWraps_witness :
    (playPreviousSong prevCtx).currentSongIndex = 2 ∧
    (playPreviousSong runCtx).currentSongIndex = 2 := by
  constructor
  · have h := (previousRestartsOrWraps prevCtx
      (by decide) (by decide) (by decide)).2 (by decide)
    rw [h]; decide
  · have h := (previousRestartsOrWraps runCtx
      (by decide) (by decide) (by decide)).1 (by decide)
    rw [h]
    decide

/-- C5: in sequential mode `next()` (source: `playNextSong`) computes
`(current + 1) mod total` and is a no-op when the catalog is empty;
consequently, from any in-range start position `p`, `total` successive
calls return to `p`, the positions visited by the pass are pairwise
distinct, and every position of `[0, total)` is visited by the pass. -/
theorem sequentialNextFullCycle (ctx : PlayerCtx) (r : Int) :
    (ctx.totalSongs = 0 → playNextSong ctx r = ctx) ∧
    (ctx.shuffleMode = false → 0 < ctx.totalSongs →
      0 ≤ ctx.currentSongIndex → ctx.currentSongIndex < ctx.totalSongs →
      ((playNextSong ctx r).currentSongIndex =
          (ctx.currentSongIndex + 1) % ctx.totalSongs ∧
        (iterNext ctx ctx.totalSongs.toNat).currentSongIndex = ctx.currentSongIndex ∧
        (∀ i j : Nat, i < ctx.totalSongs.toNat → j < ctx.totalSongs.toNat →
          (iterNext ctx (i + 1)).currentSongIndex =
            (iterNext ctx (j + 1)).currentSongIndex → i = j) ∧
        (∀ q : Int, 0 ≤ q → q < ctx.totalSongs →
          ∃ k : Nat, k < ctx.totalSongs.toNat ∧
            (iterNext ctx (k + 1)).currentSongIndex = q))) := by
  constructor
  · intro h
    simp [playNextSong, h]
  · intro hm h0 hc0 hc1
    refine ⟨playNextSong_seq_index r hm h0 hc0, ?_, ?_, ?_⟩
    · rw [(iterNext_seq ctx hm h0 hc0 hc1 ctx.totalSongs.toNat).2.2,
        Int.toNat_of_nonneg (by omega)]
      have h1 : (ctx.currentSongIndex + ctx.totalSongs * 1) % ctx.totalSongs =
          ctx.currentSongIndex % ctx.totalSongs :=
        Int.add_mul_emod_self_left ctx.currentSongIndex ctx.totalSongs 1
      have h2 : ctx.currentSongIndex + ctx.totalSongs * 1 =
          ctx.currentSongIndex + ctx.totalSongs := by ring
      rw [← h2, h1, Int.emod_eq_of_lt hc0 hc1]
    · intro i j hi hj h
      rw [(iterNext_seq ctx hm h0 hc0 hc1 (i + 1)).2.2,
        (iterNext_seq ctx hm h0 hc0 hc1 (j + 1)).2.2] at h
      have hd : ctx.totalSongs ∣
          (ctx.currentSongIndex + (j + 1)) - (ctx.currentSongIndex + (i + 1)) :=
        Int.modEq_iff_dvd.mp h
      have heq : (ctx.currentSongIndex + ((j : Int) + 1)) -
          (ctx.currentSongIndex + ((i : Int) + 1)) = (j : Int) - (i : Int) := by ring
      push_cast at hd
      rw [heq] at hd
      have hz : (j : Int) - (i : Int) = 0 := by
        refine Int.eq_zero_of_abs_lt_dvd hd ?_
        rw [abs_lt]
        omega
      omega
    · intro q hq0 hq1
      have hb0 : 0 ≤ (q - ctx.currentSongIndex - 1) % ctx.totalSongs :=
        Int.emod_nonneg _ (by omega)
      have hb1 : (q - ctx.currentSongIndex - 1) % ctx.totalSongs < ctx.totalSongs :=
        Int.emod_lt_of_pos _ h0
      refine ⟨((q - ctx.currentSongIndex - 1) % ctx.totalSongs).toNat, by omega, ?_⟩
      rw [(iterNext_seq ctx hm h0 hc0 hc1 _).2.2]
      rw [show ((↑(((q - ctx.currentSongIndex - 1) % ctx.totalSongs).toNat + 1) : Int)) =
        (q - ctx.currentSongIndex - 1) % ctx.totalSongs + 1 by
          push_cast [Int.toNat_of_nonneg hb0]; ring]
      have hstep : ctx.currentSongIndex +
          ((q - ctx.currentSongIndex - 1) % ctx.totalSongs + 1) =
          (q - ctx.currentSongIndex - 1) % ctx.totalSongs +
            (ctx.currentSongIndex + 1) := by ring
      rw [hstep, Int.emod_add_emod,
        show q - ctx.currentSongIndex - 1 + (ctx.currentSongIndex + 1) = q by ring,
        Int.emod_eq_of_lt hq0 hq1]

/-- Witness for C5: five songs, sequential, position 4: one `next()`
wraps to 0, five calls return to 4, and position 2 is hit within the
pass. -/
theorem sequentialNextFullCycle_witness :
    (playNextSong seqCtx 0).currentSongIndex = (seqCtx.currentSongIndex + 1) % seqCtx.totalSongs ∧
    (iterNext seqCtx seqCtx.totalSongs.toNat).currentSongIndex = seqCtx.currentSongIndex ∧
    (∃ k : Nat, k < seqCtx.totalSongs.toNat ∧ (iterNext seqCtx (k + 1)).currentSongIndex = 2) := by
  have h := (sequentialNextFullCycle seqCtx 0).2 (by decide) (by decide) (by decide) (by decide)
  exact ⟨h.1, h.2.1, h.2.2.2 2 (by decide) (by decide)⟩

/-- C9: in shuffle mode with more than one song, the index
`playNextSong` selects never equals the current index: a colliding draw
is advanced by one modulo `totalSongs`, so the same track is never chosen
twice back-to-back. -/
theorem shuffleAvoidsImmediateRepeat (ctx : PlayerCtx) (r : Int)
    (hm : ctx.shuffleMode = true) (h1 : 1 < ctx.totalSongs)
    (hr0 : 0 ≤ r) (hr1 : r < ctx.totalSongs) :
    (playNextSong ctx r).currentSongIndex ≠ ctx.currentSongIndex := by
  have ht : ¬ ctx.totalSongs = 0 := by omega
  by_cases hre : r = ctx.currentSongIndex
  · have hcond : 1 < ctx.totalSongs ∧ r = ctx.currentSongIndex := ⟨h1, hre⟩
    have htm : Int.tmod (r + 1) ctx.totalSongs = (r + 1) % ctx.totalSongs :=
      Int.tmod_eq_emod (by omega) (by omega)
    have hb0 : 0 ≤ (r + 1) % ctx.totalSongs := Int.emod_nonneg _ (by omega)
    have hb1 : (r + 1) % ctx.totalSongs < ctx.totalSongs :=
      Int.emod_lt_of_pos _ (by omega)
    simp only [playNextSong, if_neg ht, hm, if_true, if_pos hcond, htm]
    rw [playSongAtIndex_index hb0 hb1, ← hre]
    by_cases hlt : r + 1 < ctx.totalSongs
    · rw [Int.emod_eq_of_lt (by omega) hlt]
      omega
    · have hteq : r + 1 = ctx.totalSongs := by omega
      rw [hteq, Int.emod_self]
      omega
  · have hcond : ¬ (1 < ctx.totalSongs ∧ r = ctx.currentSongIndex) := by tauto
    simp only [playNextSong, if_neg ht, hm, if_true, if_neg hcond]
    rw [playSongAtIndex_index hr0 hr1]
    exact hre

/-- Witness for C9: three songs, current 2, draw 2 collides and is nudged
to 0, never re-selecting 2. -/
theorem shuffleAvoidsImmediateRepeat_witness :
    (playNextSong runCtx 2).currentSongIndex ≠ runCtx.currentSongIndex :=
  shuffleAvoidsImmediateRepeat runCtx 2 (by decide) (by decide) (by decide) (by decide)

/-- C10: an out-of-range index — in particular any index while the
catalog is empty — makes `playSongAtIndex` return with no state change,
and `playNextSong` / `playPreviousSong` return immediately on an empty
catalog, so the playback-start error branch is never reached from the
guarded callers while `totalSongs == 0`. -/
theorem guardedPlaybackNoOps (ctx : PlayerCtx) (i r : Int) :
    ((i < 0 ∨ ctx.totalSongs ≤ i) → playSongAtIndex ctx i = ctx) ∧
    (ctx.totalSongs = 0 →
      playSongAtIndex ctx i = ctx ∧ playNextSong ctx r = ctx ∧
        playPreviousSong ctx = ctx) := by
  refine ⟨fun h => playSongAtIndex_out h, fun h => ⟨?_, ?_, ?_⟩⟩
  · exact playSongAtIndex_out (by omega)
  · simp [playNextSong, h]
  · simp [playPreviousSong, h]

/-- Witness for C10 at the boot state (empty catalog) and index 5. -/
theorem guardedPlaybackNoOps_witness :
    playSongAtIndex baseCtx 5 = baseCtx ∧ playNextSong baseCtx 0 = baseCtx ∧
      playPreviousSong baseCtx = baseCtx :=
  (guardedPlaybackNoOps baseCtx 5 0).2 (by decide)

/-! ### Claim theorems: shuffle pass, watchdog, serial commands -/

/-- C1: evaluation of the shipped shuffle logic at a failing input. The
spec (and the repository test suite, whose `runShuffleLogicTest` calls a
`generateShuffleOrder` declared in tests/test_runner.h as a main.cpp
function that main.cpp no longer defines) requires a Fisher–Yates
permutation so that one full pass of `next()` yields each of the `total`
positions exactly once. The shipped `playNextSong` draws a fresh random
index on every call; with three songs, current position 2, and the valid
draw sequence 0, 2, 0 (each in `[0, 3)`), a full pass of three calls
visits 0, 2, 0: position 0 repeats and position 1 is never visited, so
the pass is not a duplicate-free permutation of `[0, 3)`. -/
theorem shufflePassRepeatsEval :
    playNextTrace runCtx [0, 2, 0] = [0, 2, 0] ∧
    ¬ (playNextTrace runCtx [0, 2, 0]).Nodup ∧
    (1 : Int) ∉ playNextTrace runCtx [0, 2, 0] := by
  decide

/-- C2 counterexample: a loop iteration taken during a decode stall (the
decoder produces no end-of-file callback; here the card was even yanked
mid-playback, the stall scenario of the spec) leaves the running session
byte-for-byte unchanged: it is not force-stopped and no play-next request
is raised. The loop keeps no decode-progress timestamp at all, so the
same holds at every iteration no matter how long the stall has lasted —
refuting the claim that a stalled running session is stopped and skipped
within a ≈2-second window. -/
theorem stalledSessionSurvivesLoopStep :
    runCtx.audioRunning = true ∧
    sdLoopStep runCtx stallInputs = runCtx ∧
    (sdLoopStep runCtx stallInputs).audioRunning = true ∧
    (sdLoopStep runCtx stallInputs).shouldPlayNext = false := by
  decide

/-- C2 amended: the SD-mode loop implements no decode-stall watchdog:
no timestamp of successful decode ticks is kept, and any iteration in
which the decoder fires no end-of-file and no serial command arrives
leaves a running playing session completely unchanged, regardless of
elapsed time. A play-next request arises only from the decoder
end-of-file callback (`audio_eof_mp3` sets `shouldPlayNext`); stall
recovery, if any, lives in the external decoder library
(`audio.setConnectionTimeout(500, 2500)` configured at setup), outside
this core. -/
theorem loopHasNoStallWatchdog (ctx : PlayerCtx) (inp : LoopInputs)
    (hrun : ctx.audioRunning = true) (hnext : ctx.shouldPlayNext = false)
    (hmount : ctx.cardMounted = true) (hstate : ctx.currentState = PlayerState.playing)
    (heof : inp.eofFired = false) (hcmd : inp.serialCmd = none) :
    sdLoopStep ctx inp = ctx := by
  simp [sdLoopStep, audioLoopTick, heof, hnext, hstate, hmount, hcmd]

/-- Witness for the amended C2 at the running three-song context and the
stall-iteration inputs. -/
theorem loopHasNoStallWatchdog_witness :
    sdLoopStep runCtx stallInputs = runCtx :=
  loopHasNoStallWatchdog runCtx stallInputs (by decide) (by decide) (by decide)
    (by decide) (by decide) (by decide)

/-- C8 counterexample: the unrecognized token "help" (already in
normalized, trimmed-lowercase form) produces no output whatsoever — the
dispatch chain of `loop()` has no else branch and no help text exists in
it — refuting the claim that unrecognized tokens produce a help message.
The state is indeed left unchanged. -/
theorem unknownCmdSilentCounterexample :
    recognizedCmd "help" = false ∧
    serialDispatch baseCtx "help" 0 = (baseCtx, ([] : List String)) := by
  decide

/-- C8 amended: any token outside the recognized command set (`next`,
`n`, `prev`, `p`, `pause`, `shuffle`, `rescan`, `bench`, `status`) leaves
the whole player state unchanged and produces no output — no help
message is printed. -/
theorem unknownCmdNoOp (ctx : PlayerCtx) (cmd : String) (r : Int)
    (h : recognizedCmd cmd = false) :
    serialDispatch ctx cmd r = (ctx, ([] : List String)) := by
  simp only [recognizedCmd, Bool.or_eq_false_iff, decide_eq_false_iff_not] at h
  obtain ⟨⟨⟨⟨⟨⟨⟨⟨h1, h2⟩, h3⟩, h4⟩, h5⟩, h6⟩, h7⟩, h8⟩, h9⟩ := h
  simp [serialDispatch, h1, h2, h3, h4, h5, h6, h7, h8, h9]

/-- Witness for the amended C8 at the boot state and the token "xyzzy". -/
theorem unknownCmdNoOp_witness :
    serialDispatch baseCtx "xyzzy" 0 = (baseCtx, ([] : List String)) :=
  unknownCmdNoOp baseCtx "xyzzy" 0 (by decide)

end EspPlayer
